import Mathlib

set_option maxRecDepth 1000000
set_option maxHeartbeats 1000000

/-!
Shallow embedding of the SmartNewsAggregator ingestion pipeline
(`apps/worker/src/database/news-storage.service.ts`,
`apps/worker/src/sources/hacker-news/hacker-news.service.ts`,
`apps/worker/src/services/news-queue.service.ts`,
`apps/worker/src/common/services/queue-stats.service.ts`).

Machine integers are modelled as `Nat`/`Int` with explicit `% 2^32` where the
SHA-256 rounds overflow; timestamps are `Int` milliseconds; database tables are
Lean lists threaded through explicit state passing; fallible calls are
`Except`-valued or driven by an explicit success oracle.
-/

namespace NewsAgg

/-- The chunking loop, fuelled by the input length so that the recursion is
structural (each step consumes at least one element, so the fuel never runs
out when it starts at the length). -/
def chunkArrayAux {α : Type} : Nat → List α → Nat → List (List α)
  | 0, _, _ => []
  | _ + 1, [], _ => []
  | _ + 1, _ :: _, 0 => []
  | fuel + 1, x :: xs, n + 1 =>
    (x :: xs).take (n + 1) :: chunkArrayAux fuel ((x :: xs).drop (n + 1)) (n + 1)

/-- Embeds `chunkArray` from `news-storage.service.ts` (split an array into
chunks of `size`; the service always calls it with a positive size, the
`size = 0` case loops forever there and returns `[]` here). -/
def chunkArray {α : Type} (l : List α) (size : Nat) : List (List α) :=
  chunkArrayAux l.length l size

/-- Character class of the regex `\w` (ASCII word character). -/
def isWordChar (c : Char) : Bool := c.isAlphanum || c = '_'

/-- Character class of the regex `\s` restricted to ASCII (space, tab, LF,
VT, FF, CR), which is all the titles in play use. -/
def isSpaceChar (c : Char) : Bool :=
  c = ' ' || c = '\x09' || c = '\x0a' || c = '\x0b' || c = '\x0c' || c = '\x0d'

/-- Drop the first of two adjacent blanks, repeatedly; applied after every
whitespace character has been mapped to a blank, this is the
`.replace(/\s+/g, ' ')` step of `normalizeTitle`. -/
def squeezeSpaces : List Char → List Char
  | [] => []
  | [c] => [c]
  | a :: b :: rest =>
    if a = ' ' && b = ' ' then squeezeSpaces (b :: rest)
    else a :: squeezeSpaces (b :: rest)

/-- The `.trim()` step: strip leading and trailing whitespace. -/
def trimChars (l : List Char) : List Char :=
  ((l.dropWhile isSpaceChar).reverse.dropWhile isSpaceChar).reverse

/-- `String.prototype.toLowerCase` on the ASCII strings in play. -/
def strToLower (s : String) : String := String.mk (s.data.map Char.toLower)

/-- Embeds `normalizeTitle` from `news-storage.service.ts`: lowercase, strip
punctuation (`[^\w\s]`), collapse every whitespace run to one blank, trim. -/
def normalizeTitle (title : String) : String :=
  String.mk (trimChars (squeezeSpaces
    (((title.data.map Char.toLower).filter (fun c => isWordChar c || isSpaceChar c)).map
      (fun c => if isSpaceChar c then ' ' else c))))

/-- `String.prototype.split(' ')`: split at every single blank, keeping
empty pieces, the empty string splitting to one empty piece. -/
def splitOnSpaceAux : List Char → List Char → List String
  | [], acc => [String.mk acc.reverse]
  | c :: cs, acc =>
    if c = ' ' then String.mk acc.reverse :: splitOnSpaceAux cs []
    else splitOnSpaceAux cs (c :: acc)

def splitOnSpace (s : String) : List String := splitOnSpaceAux s.data []

/-- Whether the pattern is a prefix of the text. -/
def matchesHere : List Char → List Char → Bool
  | [], _ => true
  | _ :: _, [] => false
  | p :: ps, c :: cs => p == c && matchesHere ps cs

/-- Whether the pattern occurs anywhere in the text. -/
def occursIn (pat text : List Char) : Bool :=
  matchesHere pat text ||
    match text with
    | [] => false
    | _ :: rest => occursIn pat rest

/-- `String.prototype.includes`: `pat` occurs somewhere in `s`. -/
def strContains (s pat : String) : Bool := occursIn pat.data s.data

/-! ## SHA-256 (the `crypto.createHash('sha256')` call), over byte lists -/

/-- Addition modulo `2^32`. -/
def add32 (a b : Nat) : Nat := (a + b) % 4294967296

/-- Right rotation of a 32-bit word. -/
def rotr32 (n x : Nat) : Nat := ((x >>> n) ||| (x <<< (32 - n))) % 4294967296

def bigSigma0 (x : Nat) : Nat := rotr32 2 x ^^^ rotr32 13 x ^^^ rotr32 22 x
def bigSigma1 (x : Nat) : Nat := rotr32 6 x ^^^ rotr32 11 x ^^^ rotr32 25 x
def smallSigma0 (x : Nat) : Nat := rotr32 7 x ^^^ rotr32 18 x ^^^ (x >>> 3)
def smallSigma1 (x : Nat) : Nat := rotr32 17 x ^^^ rotr32 19 x ^^^ (x >>> 10)
def chFn (e f g : Nat) : Nat := (e &&& f) ^^^ ((e ^^^ 4294967295) &&& g)
def majFn (a b c : Nat) : Nat := (a &&& b) ^^^ (a &&& c) ^^^ (b &&& c)

/-- The eight 32-bit words of the SHA-256 working state. -/
structure Sha256State where
  a : Nat
  b : Nat
  c : Nat
  d : Nat
  e : Nat
  f : Nat
  g : Nat
  h : Nat
deriving Repr, DecidableEq

/-- The eight initial hash words of FIPS 180-4, written in decimal. -/
def sha256Init : Sha256State :=
  ⟨1779033703, 3144134277, 1013904242, 2773480762,
   1359893119, 2600822924, 528734635, 1541459225⟩

/-- The 64 round constants of FIPS 180-4, written in decimal. -/
def sha256K : List Nat :=
  [1116352408, 1899447441, 3049323471, 3921009573, 961987163,
   1508970993, 2453635748, 2870763221, 3624381080, 310598401,
   607225278, 1426881987, 1925078388, 2162078206, 2614888103,
   3248222580, 3835390401, 4022224774, 264347078, 604807628,
   770255983, 1249150122, 1555081692, 1996064986, 2554220882,
   2821834349, 2952996808, 3210313671, 3336571891, 3584528711,
   113926993, 338241895, 666307205, 773529912, 1294757372,
   1396182291, 1695183700, 1986661051, 2177026350, 2456956037,
   2730485921, 2820302411, 3259730800, 3345764771, 3516065817,
   3600352804, 4094571909, 275423344, 430227734, 506948616,
   659060556, 883997877, 958139571, 1322822218, 1537002063,
   1747873779, 1955562222, 2024104815, 2227730452, 2361852424,
   2428436474, 2756734187, 3204031479, 3329325298]

/-- Extend the 16 block words to the 64-word message schedule; `acc` holds the
words produced so far, most recent first. -/
def extendSchedule : Nat → List Nat → List Nat
  | 0, acc => acc
  | n + 1, acc =>
    extendSchedule n
      (add32 (add32 (smallSigma1 (acc.getD 1 0)) (acc.getD 6 0))
             (add32 (smallSigma0 (acc.getD 14 0)) (acc.getD 15 0)) :: acc)

def scheduleOf (w16 : List Nat) : List Nat := (extendSchedule 48 w16.reverse).reverse

/-- One SHA-256 round, consuming a `(schedule word, round constant)` pair. -/
def shaRound (st : Sha256State) (wk : Nat × Nat) : Sha256State :=
  let t1 := add32 (add32 (add32 st.h (bigSigma1 st.e)) (add32 (chFn st.e st.f st.g) wk.2)) wk.1
  let t2 := add32 (bigSigma0 st.a) (majFn st.a st.b st.c)
  ⟨add32 t1 t2, st.a, st.b, st.c, add32 st.d t1, st.e, st.f, st.g⟩

def compressBlock (hs : Sha256State) (w16 : List Nat) : Sha256State :=
  let fin := ((scheduleOf w16).zip sha256K).foldl shaRound hs
  ⟨add32 hs.a fin.a, add32 hs.b fin.b, add32 hs.c fin.c, add32 hs.d fin.d,
   add32 hs.e fin.e, add32 hs.f fin.f, add32 hs.g fin.g, add32 hs.h fin.h⟩

/-- Big-endian byte expansion, fixed width. -/
def toBytesBE : Nat → Nat → List Nat
  | 0, _ => []
  | k + 1, n => toBytesBE k (n / 256) ++ [n % 256]

/-- SHA-256 padding: append `0x80`, zero fill to 56 mod 64, then the 64-bit
big-endian bit length. -/
def padMessage (bytes : List Nat) : List Nat :=
  let L := bytes.length
  bytes ++ [128] ++ List.replicate ((119 - (L % 64)) % 64) 0 ++ toBytesBE 8 (8 * L)

/-- Pack four bytes into one big-endian 32-bit word. -/
def wordsOfBlock (block : List Nat) : List Nat :=
  (chunkArray block 4).map (fun bs => bs.foldl (fun acc b => acc * 256 + b) 0)

def sha256Digest (bytes : List Nat) : Sha256State :=
  (chunkArray (padMessage bytes) 64).foldl
    (fun hs block => compressBlock hs (wordsOfBlock block)) sha256Init

def hexDigitChar (n : Nat) : Char :=
  match n % 16 with
  | 0 => '0' | 1 => '1' | 2 => '2' | 3 => '3' | 4 => '4' | 5 => '5'
  | 6 => '6' | 7 => '7' | 8 => '8' | 9 => '9' | 10 => 'a' | 11 => 'b'
  | 12 => 'c' | 13 => 'd' | 14 => 'e' | _ => 'f'

/-- Fixed-width lowercase hex rendering, most significant digit first. -/
def toHexFixed : Nat → Nat → List Char
  | 0, _ => []
  | d + 1, n => toHexFixed d (n / 16) ++ [hexDigitChar n]

/-- The `.digest('hex')` of SHA-256 as a character list (64 hex chars). -/
def sha256HexChars (bytes : List Nat) : List Char :=
  let st := sha256Digest bytes
  toHexFixed 8 st.a ++ toHexFixed 8 st.b ++ toHexFixed 8 st.c ++ toHexFixed 8 st.d ++
  toHexFixed 8 st.e ++ toHexFixed 8 st.f ++ toHexFixed 8 st.g ++ toHexFixed 8 st.h

/-- UTF-8 encoding of one character (Node's `Buffer.from(str, 'utf8')`). -/
def utf8Char (c : Char) : List Nat :=
  let n := c.toNat
  if n < 128 then [n]
  else if n < 2048 then [192 ||| (n >>> 6), 128 ||| (n &&& 63)]
  else if n < 65536 then
    [224 ||| (n >>> 12), 128 ||| ((n >>> 6) &&& 63), 128 ||| (n &&& 63)]
  else
    [240 ||| (n >>> 18), 128 ||| ((n >>> 12) &&& 63),
     128 ||| ((n >>> 6) &&& 63), 128 ||| (n &&& 63)]

def utf8Bytes (s : String) : List Nat :=
  s.data.foldr (fun c acc => utf8Char c ++ acc) []

/-! ## JSON.stringify for the hash payload -/

/-- `JSON.stringify` escaping of one string character. -/
def jsonEscapeChar (c : Char) : List Char :=
  if c = '"' then ['\\', '"']
  else if c = '\\' then ['\\', '\\']
  else if c = '\x08' then ['\\', 'b']
  else if c = '\x09' then ['\\', 't']
  else if c = '\x0a' then ['\\', 'n']
  else if c = '\x0c' then ['\\', 'f']
  else if c = '\x0d' then ['\\', 'r']
  else if c.toNat < 32 then '\\' :: 'u' :: '0' :: '0' :: toHexFixed 2 c.toNat
  else [c]

/-- A JSON string literal, quotes included. -/
def jsonQuote (s : String) : String :=
  String.mk ('"' :: s.data.foldr (fun c acc => jsonEscapeChar c ++ acc) [] ++ ['"'])

/-! ## Data model -/

/-- `ProcessedStory` from `hacker-news.service.ts`. The TS type declares
`author: string`, but `createContentHash` defends against a missing author
(`story.author?.toLowerCase() || 'unknown'`), so the author is an `Option`. -/
structure ProcessedStory where
  id : Nat
  title : String
  sourceUrl : String
  author : Option String
  score : Nat
  time : Nat
  comments : Nat
  storyType : String
deriving Repr, DecidableEq

/-- The `story.author?.toLowerCase() || 'unknown'` expression of
`createContentHash` (an absent or empty author falls back to `"unknown"`). -/
def authorKey (s : ProcessedStory) : String :=
  match s.author with
  | none => "unknown"
  | some a => if strToLower a = "" then "unknown" else strToLower a

/-- The `JSON.stringify({id, title, author, time, url})` payload of
`createContentHash`, keys in the object-literal order of the source. -/
def contentString (s : ProcessedStory) : String :=
  "\x7b\"id\":" ++ toString s.id ++
  ",\"title\":" ++ jsonQuote (normalizeTitle s.title) ++
  ",\"author\":" ++ jsonQuote (authorKey s) ++
  ",\"time\":" ++ toString s.time ++
  ",\"url\":" ++ jsonQuote s.sourceUrl ++ "\x7d"

/-- Embeds `createContentHash` from `news-storage.service.ts`:
`hn_` plus the first 16 hex characters of the SHA-256 of the JSON payload. -/
def createContentHash (s : ProcessedStory) : String :=
  "hn_" ++ String.mk ((sha256HexChars (utf8Bytes (contentString s))).take 16)

/-- A persisted `Article` row (the columns written by `processBatch` and
consumed by the duplicate checks and the cleanup; `createdAt` is the Prisma
`now()` default, timestamps in epoch milliseconds). -/
structure Article where
  sourceId : Nat
  url : String
  title : String
  author : Option String
  outlet : String
  publishedAt : Int
  lang : String
  paywalled : Bool
  cleanedText : String
  hash : String
  createdAt : Int
deriving Repr, DecidableEq

/-- The row built by `tx.article.create` inside `processBatch`
(`publishedAt = new Date(story.time * 1000)`). -/
def mkArticle (sourceId : Nat) (now : Int) (story : ProcessedStory) (contentHash : String) :
    Article :=
  ⟨sourceId, story.sourceUrl, story.title, story.author, "Hacker News",
   (story.time : Int) * 1000, "en", false, story.title, contentHash, now⟩

/-! ## Duplicate detection -/

/-- Embeds `calculateTitleSimilarity`: Jaccard index of the sets of
normalized-title words longer than 2 characters (an empty union gives `0/0
= 0` here where JS produces `NaN`; both fail the `> 0.8` test identically). -/
def simWords (t : String) : List String :=
  ((splitOnSpace (normalizeTitle t)).filter (fun w => w.length > 2)).dedup

/-- The Jaccard quotient itself (`intersection.size / union.size`). -/
def calculateTitleSimilarity (title1 title2 : String) : ℚ :=
  let words1 := simWords title1
  let words2 := simWords title2
  let inter := words1.filter (fun w => words2.contains w)
  let union := (words1 ++ words2).dedup
  (inter.length : ℚ) / (union.length : ℚ)

/-- The result record of `checkForDuplicates`. -/
structure DupCheck where
  isDuplicate : Bool
  reason : String
  existingArticle : Option Article
deriving Repr, DecidableEq

/-- The Prisma filter of the fuzzy-title query: title equals the story title
(case-insensitively), or contains the normalized title, or contains any
significant word, and `publishedAt` lies within the last 30 days. -/
def titleMatchFilter (now : Int) (story : ProcessedStory) (normalizedTitle : String)
    (titleWords : List String) (a : Article) : Bool :=
  (strToLower a.title == strToLower story.title
    || strContains (strToLower a.title) (strToLower normalizedTitle)
    || titleWords.any (fun w => strContains (strToLower a.title) (strToLower w)))
  && (now - 2592000000 ≤ a.publishedAt)

/-- `findFirst` ordered by `publishedAt` descending: the matching row with
the greatest `publishedAt` (first such row on ties). -/
def findFirstByPublishedDesc (p : Article → Bool) (db : List Article) : Option Article :=
  (db.filter p).foldl
    (fun acc a =>
      match acc with
      | none => some a
      | some b => if b.publishedAt < a.publishedAt then some a else some b)
    none

/-- The single fuzzy-title candidate `checkForDuplicates` inspects: only
present when the story has significant words (length > 3). -/
def titleDupCandidate (db : List Article) (now : Int) (story : ProcessedStory) :
    Option Article :=
  let normalizedTitle := normalizeTitle story.title
  let titleWords := (splitOnSpace normalizedTitle).filter (fun w => w.length > 3)
  if 0 < titleWords.length then
    findFirstByPublishedDesc (titleMatchFilter now story normalizedTitle titleWords) db
  else none

/-- Embeds `checkForDuplicates` from `news-storage.service.ts`: hash match,
then URL match, then the fuzzy-title strategy, short-circuiting in that
order (the canonical-URL strategy is a no-op in the source). -/
def checkForDuplicates (db : List Article) (now : Int) (story : ProcessedStory)
    (contentHash : String) : DupCheck :=
  match db.find? (fun a => a.hash == contentHash) with
  | some a => ⟨true, "hash", some a⟩
  | none =>
    match db.find? (fun a => a.url == story.sourceUrl) with
    | some a => ⟨true, "url", some a⟩
    | none =>
      match titleDupCandidate db now story with
      | some e =>
        if e.title ≠ "" ∧ (0.8 : ℚ) < calculateTitleSimilarity story.title e.title then
          ⟨true, "title", some e⟩
        else ⟨false, "none", none⟩
      | none => ⟨false, "none", none⟩

/-! ## Batch persistence -/

/-- The `{saved, skipped, errors, duplicates}` statistics record. -/
structure SaveCounts where
  saved : Nat
  skipped : Nat
  errors : Nat
  duplicates : Nat
deriving Repr, DecidableEq

/-- One iteration of the story loop inside `processBatch`'s transaction:
duplicate by hash counts as skipped, other duplicate reasons count as
duplicates, otherwise the row is inserted; `createOk` is the oracle deciding
whether the `tx.article.create` call succeeds (a `false` models the per-item
exception caught by the inner `try`, which increments `errors` and moves on). -/
def processStory (now : Int) (sourceId : Nat) (createOk : ProcessedStory → Bool)
    (st : List Article × SaveCounts) (story : ProcessedStory) :
    List Article × SaveCounts :=
  let db := st.1
  let c := st.2
  let contentHash := createContentHash story
  let check := checkForDuplicates db now story contentHash
  if check.isDuplicate then
    if check.reason == "hash" then (db, { c with skipped := c.skipped + 1 })
    else (db, { c with duplicates := c.duplicates + 1 })
  else if createOk story then
    (db ++ [mkArticle sourceId now story contentHash], { c with saved := c.saved + 1 })
  else (db, { c with errors := c.errors + 1 })

/-- Embeds `processBatch`: sequential per-story processing inside one
transaction, the later stories seeing the rows inserted earlier in the
same batch. -/
def processBatch (db : List Article) (now : Int) (sourceId : Nat)
    (stories : List ProcessedStory) (createOk : ProcessedStory → Bool) :
    List Article × SaveCounts :=
  stories.foldl (processStory now sourceId createOk) (db, ⟨0, 0, 0, 0⟩)

/-- Embeds `saveHackerNewsStories`: chunk into sub-batches of 50 and sum the
per-batch statistics (the success path in which each batch transaction
commits; the source row for this origin already exists or is created by
`ensureHackerNewsSource`, surfacing here only as `sourceId`). -/
def saveHackerNewsStories (db : List Article) (now : Int) (sourceId : Nat)
    (stories : List ProcessedStory) (createOk : ProcessedStory → Bool) :
    List Article × SaveCounts :=
  (chunkArray stories 50).foldl
    (fun st batch =>
      let r := processBatch st.1 now sourceId batch createOk
      (r.1, ⟨st.2.saved + r.2.saved, st.2.skipped + r.2.skipped,
             st.2.errors + r.2.errors, st.2.duplicates + r.2.duplicates⟩))
    (db, ⟨0, 0, 0, 0⟩)

/-- Embeds `bulkInsertArticles`: pre-fetch the hashes and urls of the
articles of this source or with a url among the input urls, filter the
input against those sets client-side, then `createMany` with
`skipDuplicates` (rows conflicting on the unique hash or url columns are
silently dropped); `skipped` is reconciled as `input length - inserted`. -/
def bulkInsertArticles (db : List Article) (now : Int) (sourceId : Nat)
    (stories : List ProcessedStory) : List Article × SaveCounts :=
  let existingArticles := db.filter
    (fun a => a.sourceId == sourceId || stories.any (fun s => s.sourceUrl == a.url))
  let existingHashes := existingArticles.map (fun a => a.hash)
  let existingUrls := existingArticles.map (fun a => a.url)
  let articlesToInsert := stories.filterMap (fun s =>
    let contentHash := createContentHash s
    if existingHashes.contains contentHash || existingUrls.contains s.sourceUrl then none
    else some (mkArticle sourceId now s contentHash))
  if articlesToInsert.length == 0 then (db, ⟨0, stories.length, 0, 0⟩)
  else
    let ins := articlesToInsert.foldl
      (fun (st : List Article × Nat) row =>
        if st.1.any (fun a => a.hash == row.hash || a.url == row.url) then st
        else (st.1 ++ [row], st.2 + 1))
      (db, 0)
    (ins.1, ⟨ins.2, stories.length - ins.2, 0, 0⟩)

/-! ## Cleanup -/

/-- Embeds `cleanupOldArticles`: `deleteMany` of the rows with
`createdAt < now - olderThanDays` days, returning the surviving table and
the deleted count. -/
def cleanupOldArticles (db : List Article) (now : Int) (olderThanDays : Nat) :
    List Article × Nat :=
  let cutoffDate := now - (olderThanDays : Int) * 86400000
  (db.filter (fun a => !(a.createdAt < cutoffDate)),
   (db.filter (fun a => a.createdAt < cutoffDate)).length)

/-! ## Retry helper -/

/-- The `maxRetries` field of the service. -/
def maxRetries : Nat := 3

/-- The `baseDelay` field of the service (milliseconds). -/
def baseDelay : Nat := 1000

/-- Outcome of `retryWithBackoff`: the value or final error, how many times
the operation ran, and the backoff delays slept between attempts. -/
structure RetryTrace (ε α : Type) where
  result : Except ε α
  attemptsMade : Nat
  delays : List Nat
deriving Repr

/-- The attempt loop of `retryWithBackoff`; `remaining` is the number of
attempts still allowed after the current one, and the operation is indexed
by the 1-based attempt counter. -/
def retryAux (op : Nat → Except ε α) : Nat → Nat → List Nat → RetryTrace ε α
  | attempt, 0, acc =>
    match op attempt with
    | .ok a => ⟨.ok a, attempt, acc⟩
    | .error e => ⟨.error e, attempt, acc⟩
  | attempt, remaining + 1, acc =>
    match op attempt with
    | .ok a => ⟨.ok a, attempt, acc⟩
    | .error _ => retryAux op (attempt + 1) remaining (acc ++ [baseDelay * 2 ^ (attempt - 1)])

/-- Embeds `retryWithBackoff` from `news-storage.service.ts` for a positive
retry budget (the service always passes `maxRetries = 3`). -/
def retryWithBackoff (op : Nat → Except ε α) (retries : Nat) : RetryTrace ε α :=
  retryAux op 1 (retries - 1) []

/-- Embeds the database-call structure of `cleanupOldArticles`: the method
awaits `this.prisma.article.deleteMany(...)` directly — the call runs exactly
once (invocation index 1) and is not wrapped in `retryWithBackoff`. -/
def cleanupOldArticlesCall (deleteMany : Nat → Except ε Nat) : Except ε Nat :=
  deleteMany 1

/-! ## Queue statistics -/

/-- A broker queue's current jobs, one list per state (job ids). -/
structure QueueState where
  name : String
  waiting : List Nat
  active : List Nat
  completed : List Nat
  failed : List Nat
  delayed : List Nat
deriving Repr, DecidableEq

/-- The `QueueStats` record of `queue-stats.service.ts`. -/
structure QueueStats where
  name : String
  waiting : Nat
  active : Nat
  completed : Nat
  failed : Nat
  delayed : Nat
  total : Nat
deriving Repr, DecidableEq

/-- Embeds `getSingleQueueStats` from `queue-stats.service.ts`: queries the
broker's five job lists at call time and returns their lengths. -/
def getSingleQueueStats (q : QueueState) : QueueStats :=
  ⟨q.name, q.waiting.length, q.active.length, q.completed.length, q.failed.length,
   q.delayed.length,
   q.waiting.length + q.active.length + q.completed.length + q.failed.length
     + q.delayed.length⟩

/-- The record returned by `NewsQueueService.getQueueStats` — it has no
`delayed` field. -/
structure NewsQueueStatsRecord where
  waiting : Nat
  active : Nat
  completed : Nat
  failed : Nat
  total : Nat
deriving Repr, DecidableEq

/-- Embeds `getQueueStats` from `news-queue.service.ts`: queries only the
waiting/active/completed/failed lists. -/
def newsGetQueueStats (q : QueueState) : NewsQueueStatsRecord :=
  ⟨q.waiting.length, q.active.length, q.completed.length, q.failed.length,
   q.waiting.length + q.active.length + q.completed.length + q.failed.length⟩

/-! ## Hacker News source client -/

/-- `HackerNewsStory` from `hacker-news.service.ts` (`byAuthor` and
`itemType` stand for the JSON fields `by` and `type`, which are reserved
words in Lean; `url` is optional as in the TS interface). -/
structure HackerNewsStory where
  byAuthor : String
  descendants : Nat
  id : Nat
  score : Nat
  time : Nat
  title : String
  itemType : String
  url : Option String
deriving Repr, DecidableEq

/-- Embeds `fetchStoryDetail`: `fetchItem` is the per-item HTTP call
(`none` models a failed or rejected fetch, which the method catches and
turns into `null`); non-story items and items without a title are dropped. -/
def fetchStoryDetail (fetchItem : Nat → Option HackerNewsStory) (storyId : Nat)
    (storyType : String) : Option ProcessedStory :=
  match fetchItem storyId with
  | none => none
  | some story =>
    if story.itemType != "story" || story.title == "" then none
    else
      some ⟨story.id, story.title,
        story.url.getD ("https://news.ycombinator.com/item?id=" ++ toString story.id),
        some story.byAuthor, story.score, story.time, story.descendants, storyType⟩

/-- Embeds `processStories`: resolve the ids in batches of 5 (Promise.allSettled
collecting the fulfilled non-null results in order; the inter-batch 100ms
delay has no effect on the returned value). -/
def processStories (fetchItem : Nat → Option HackerNewsStory) (storyIds : List Nat)
    (storyType : String) : List ProcessedStory :=
  (chunkArray storyIds 5).foldl
    (fun acc batch => acc ++ batch.filterMap (fun i => fetchStoryDetail fetchItem i storyType))
    []

/-- Embeds `fetchTopStories`: slice the index to its first 20 ids, then
resolve those. -/
def fetchTopStories (fetchItem : Nat → Option HackerNewsStory) (index : List Nat) :
    List ProcessedStory :=
  processStories fetchItem (index.take 20) "top"

/-- Embeds `fetchBestStories`. -/
def fetchBestStories (fetchItem : Nat → Option HackerNewsStory) (index : List Nat) :
    List ProcessedStory :=
  processStories fetchItem (index.take 20) "best"

/-- Embeds `fetchNewStories`. -/
def fetchNewStories (fetchItem : Nat → Option HackerNewsStory) (index : List Nat) :
    List ProcessedStory :=
  processStories fetchItem (index.take 20) "new"

/-- Embeds `fetchAllStories`: the three category fetches run under
`Promise.allSettled`; a rejected category (its `ok` flag false, e.g. the
index fetch threw) contributes an empty array. -/
def fetchAllStories (fetchItem : Nat → Option HackerNewsStory)
    (topIndex bestIndex newIndex : List Nat) (topOk bestOk newOk : Bool) :
    List ProcessedStory × List ProcessedStory × List ProcessedStory :=
  (if topOk then fetchTopStories fetchItem topIndex else [],
   if bestOk then fetchBestStories fetchItem bestIndex else [],
   if newOk then fetchNewStories fetchItem newIndex else [])

/-! ## Infrastructure lemmas -/

theorem chunkArrayAux_flatten {α : Type} (n : Nat) :
    ∀ (fuel : Nat) (l : List α), l.length ≤ fuel →
      (chunkArrayAux fuel l (n + 1)).flatten = l := by
  intro fuel
  induction fuel with
  | zero =>
    intro l hl
    cases l with
    | nil => rfl
    | cons x xs => simp at hl
  | succ fuel ih =>
    intro l hl
    cases l with
    | nil => rfl
    | cons x xs =>
      simp only [chunkArrayAux, List.flatten_cons]
      rw [ih ((x :: xs).drop (n + 1))]
      · exact List.take_append_drop (n + 1) (x :: xs)
      · simp only [List.drop_succ_cons, List.length_drop]
        simp only [List.length_cons] at hl
        omega

theorem chunkArray_flatten {α : Type} (l : List α) (n : Nat) :
    (chunkArray l (n + 1)).flatten = l :=
  chunkArrayAux_flatten n l.length l le_rfl

/-- Fieldwise sum of two statistics records. -/
def addCounts (c d : SaveCounts) : SaveCounts :=
  ⟨c.saved + d.saved, c.skipped + d.skipped, c.errors + d.errors,
   c.duplicates + d.duplicates⟩

/-- The sum of the four statistics fields. -/
def SaveCounts.total (c : SaveCounts) : Nat :=
  c.saved + c.skipped + c.errors + c.duplicates

theorem addCounts_zero (c : SaveCounts) : addCounts c ⟨0, 0, 0, 0⟩ = c := by
  simp [addCounts]

theorem processStory_shift (now : Int) (sid : Nat) (ok : ProcessedStory → Bool)
    (db : List Article) (c d : SaveCounts) (s : ProcessedStory) :
    processStory now sid ok (db, addCounts c d) s =
      ((processStory now sid ok (db, d) s).1,
       addCounts c (processStory now sid ok (db, d) s).2) := by
  simp only [processStory]
  split
  · split
    · simp [addCounts, Nat.add_assoc]
    · simp [addCounts, Nat.add_assoc]
  · split
    · simp [addCounts, Nat.add_assoc]
    · simp [addCounts, Nat.add_assoc]

theorem foldl_processStory_shift (now : Int) (sid : Nat) (ok : ProcessedStory → Bool) :
    ∀ (stories : List ProcessedStory) (db : List Article) (c d : SaveCounts),
      stories.foldl (processStory now sid ok) (db, addCounts c d) =
        ((stories.foldl (processStory now sid ok) (db, d)).1,
         addCounts c (stories.foldl (processStory now sid ok) (db, d)).2) := by
  intro stories
  induction stories with
  | nil => intro db c d; rfl
  | cons s rest ih =>
    intro db c d
    simp only [List.foldl_cons]
    rw [processStory_shift]
    exact ih (processStory now sid ok (db, d) s).1 c (processStory now sid ok (db, d) s).2

theorem processStory_total (now : Int) (sid : Nat) (ok : ProcessedStory → Bool)
    (st : List Article × SaveCounts) (s : ProcessedStory) :
    ((processStory now sid ok st s).2).total = st.2.total + 1 := by
  rcases st with ⟨db, c⟩
  simp only [processStory]
  split
  · split
    · simp [SaveCounts.total]; omega
    · simp [SaveCounts.total]; omega
  · split
    · simp [SaveCounts.total]; omega
    · simp [SaveCounts.total]; omega

theorem foldl_processStory_total (now : Int) (sid : Nat) (ok : ProcessedStory → Bool) :
    ∀ (stories : List ProcessedStory) (st : List Article × SaveCounts),
      ((stories.foldl (processStory now sid ok) st).2).total = st.2.total + stories.length := by
  intro stories
  induction stories with
  | nil => intro st; simp
  | cons s rest ih =>
    intro st
    simp only [List.foldl_cons, List.length_cons]
    rw [ih, processStory_total]
    omega

theorem processBatch_total (db : List Article) (now : Int) (sid : Nat)
    (stories : List ProcessedStory) (ok : ProcessedStory → Bool) :
    ((processBatch db now sid stories ok).2).total = stories.length := by
  unfold processBatch
  rw [foldl_processStory_total]
  simp [SaveCounts.total]

theorem foldl_batches_total (now : Int) (sid : Nat) (ok : ProcessedStory → Bool) :
    ∀ (chunks : List (List ProcessedStory)) (st : List Article × SaveCounts),
      ((chunks.foldl
          (fun st batch =>
            let r := processBatch st.1 now sid batch ok
            (r.1, ⟨st.2.saved + r.2.saved, st.2.skipped + r.2.skipped,
                   st.2.errors + r.2.errors, st.2.duplicates + r.2.duplicates⟩))
          st).2).total = st.2.total + (chunks.map List.length).sum := by
  intro chunks
  induction chunks with
  | nil => intro st; simp
  | cons b rest ih =>
    intro st
    simp only [List.foldl_cons, List.map_cons, List.sum_cons]
    rw [ih]
    have hb := processBatch_total st.1 now sid b ok
    simp only [SaveCounts.total] at hb ⊢
    omega

theorem toHexFixed_length : ∀ (d n : Nat), (toHexFixed d n).length = d := by
  intro d
  induction d with
  | zero => intro n; rfl
  | succ d ih => intro n; simp [toHexFixed, ih]

theorem sha256HexChars_length (bytes : List Nat) : (sha256HexChars bytes).length = 64 := by
  simp [sha256HexChars, toHexFixed_length]

theorem hexDigitChar_mem (n : Nat) : hexDigitChar n ∈ ("0123456789abcdef").data := by
  unfold hexDigitChar
  split <;> decide

theorem toHexFixed_mem : ∀ (d n : Nat), ∀ c ∈ toHexFixed d n, c ∈ ("0123456789abcdef").data := by
  intro d
  induction d with
  | zero => intro n c hc; simp [toHexFixed] at hc
  | succ d ih =>
    intro n c hc
    simp only [toHexFixed, List.mem_append, List.mem_singleton] at hc
    rcases hc with hc | hc
    · exact ih _ c hc
    · rw [hc]; exact hexDigitChar_mem n

theorem createContentHash_congr (s s2 : ProcessedStory)
    (hid : s2.id = s.id) (ht : normalizeTitle s2.title = normalizeTitle s.title)
    (ha : authorKey s2 = authorKey s) (htm : s2.time = s.time)
    (hu : s2.sourceUrl = s.sourceUrl) :
    createContentHash s2 = createContentHash s := by
  unfold createContentHash contentString
  rw [hid, ht, ha, htm, hu]

theorem checkForDuplicates_nil (now : Int) (s : ProcessedStory) (h : String) :
    checkForDuplicates [] now s h = ⟨false, "none", none⟩ := by
  unfold checkForDuplicates titleDupCandidate findFirstByPublishedDesc
  simp

/-- The max-`publishedAt` fold only ever returns a list element or the seed. -/
theorem foldl_pick_mem :
    ∀ (l : List Article) (acc : Option Article) (e : Article),
      l.foldl
        (fun acc a =>
          match acc with
          | none => some a
          | some b => if b.publishedAt < a.publishedAt then some a else some b)
        acc = some e → e ∈ l ∨ acc = some e := by
  intro l
  induction l with
  | nil => intro acc e h; exact Or.inr h
  | cons x xs ih =>
    intro acc e h
    simp only [List.foldl_cons] at h
    rcases ih _ e h with hmem | hacc
    · exact Or.inl (List.mem_cons_of_mem x hmem)
    · rcases acc with - | b
      · simp at hacc
        exact Or.inl (hacc ▸ List.mem_cons_self x xs)
      · by_cases hlt : b.publishedAt < x.publishedAt
        · simp [hlt] at hacc
          exact Or.inl (hacc ▸ List.mem_cons_self x xs)
        · simp [hlt] at hacc
          exact Or.inr (by rw [hacc])

theorem findFirstByPublishedDesc_sat (p : Article → Bool) (db : List Article)
    (e : Article) (h : findFirstByPublishedDesc p db = some e) : p e = true := by
  unfold findFirstByPublishedDesc at h
  rcases foldl_pick_mem (db.filter p) none e h with hmem | hacc
  · exact (List.mem_filter.mp hmem).2
  · simp at hacc

theorem titleDupCandidate_window (db : List Article) (now : Int) (s : ProcessedStory)
    (e : Article) (h : titleDupCandidate db now s = some e) :
    now - 2592000000 ≤ e.publishedAt := by
  simp only [titleDupCandidate] at h
  split at h
  · have hp := findFirstByPublishedDesc_sat _ _ _ h
    simp only [titleMatchFilter, Bool.and_eq_true, decide_eq_true_eq] at hp
    exact hp.2
  · simp at h

theorem find?_some_of_exists {α : Type} (p : α → Bool) (l : List α)
    (hex : ∃ a ∈ l, p a = true) : ∃ b, l.find? p = some b :=
  Option.isSome_iff_exists.mp (List.find?_isSome.mpr hex)

theorem processStory_hash_dup (now : Int) (sid : Nat) (ok : ProcessedStory → Bool)
    (db : List Article) (c : SaveCounts) (s : ProcessedStory) (b : Article)
    (hb : db.find? (fun a => a.hash == createContentHash s) = some b) :
    processStory now sid ok (db, c) s = (db, { c with skipped := c.skipped + 1 }) := by
  simp [processStory, checkForDuplicates, hb]

theorem processStory_url_dup (now : Int) (sid : Nat) (ok : ProcessedStory → Bool)
    (db : List Article) (c : SaveCounts) (s : ProcessedStory) (b : Article)
    (hh : db.find? (fun a => a.hash == createContentHash s) = none)
    (hb : db.find? (fun a => a.url == s.sourceUrl) = some b) :
    processStory now sid ok (db, c) s = (db, { c with duplicates := c.duplicates + 1 }) := by
  simp [processStory, checkForDuplicates, hh, hb]

theorem processStory_no_dup (now : Int) (sid : Nat) (ok : ProcessedStory → Bool)
    (db : List Article) (c : SaveCounts) (s : ProcessedStory)
    (hnd : (checkForDuplicates db now s (createContentHash s)).isDuplicate = false) :
    processStory now sid ok (db, c) s =
      if ok s then
        (db ++ [mkArticle sid now s (createContentHash s)], { c with saved := c.saved + 1 })
      else (db, { c with errors := c.errors + 1 }) := by
  simp [processStory, hnd]

theorem save_singleton (db : List Article) (now : Int) (sid : Nat) (s : ProcessedStory)
    (ok : ProcessedStory → Bool) :
    saveHackerNewsStories db now sid [s] ok = processStory now sid ok (db, ⟨0, 0, 0, 0⟩) s := by
  show (let r := processStory now sid ok (db, ⟨0, 0, 0, 0⟩) s
        (r.1, (⟨0 + r.2.saved, 0 + r.2.skipped, 0 + r.2.errors, 0 + r.2.duplicates⟩ : SaveCounts)))
      = processStory now sid ok (db, ⟨0, 0, 0, 0⟩) s
  simp

theorem foldl_append_filterMap (g : Nat → Option ProcessedStory) :
    ∀ (batches : List (List Nat)) (acc : List ProcessedStory),
      batches.foldl (fun acc b => acc ++ b.filterMap g) acc =
        acc ++ batches.flatten.filterMap g := by
  intro batches
  induction batches with
  | nil => intro acc; simp
  | cons b rest ih =>
    intro acc
    simp only [List.foldl_cons, List.flatten_cons, List.filterMap_append]
    rw [ih]
    simp [List.append_assoc]

theorem processStories_eq (fetchItem : Nat → Option HackerNewsStory) (ids : List Nat)
    (t : String) :
    processStories fetchItem ids t =
      ids.filterMap (fun i => fetchStoryDetail fetchItem i t) := by
  unfold processStories
  rw [foldl_append_filterMap]
  have h5 : (chunkArray ids 5).flatten = ids := chunkArray_flatten ids 4
  rw [h5]
  simp

theorem retryAux_ok_now {ε α : Type} (op : Nat → Except ε α) (a : α) :
    ∀ (rem att : Nat) (acc : List Nat), op att = .ok a →
      retryAux op att rem acc = ⟨.ok a, att, acc⟩ := by
  intro rem
  cases rem with
  | zero => intro att acc hop; simp [retryAux, hop]
  | succ r => intro att acc hop; simp [retryAux, hop]

theorem retryAux_attempts_le {ε α : Type} (op : Nat → Except ε α) :
    ∀ (rem att : Nat) (acc : List Nat),
      (retryAux op att rem acc).attemptsMade ≤ att + rem := by
  intro rem
  induction rem with
  | zero =>
    intro att acc
    unfold retryAux
    split <;> simp
  | succ r ih =>
    intro att acc
    unfold retryAux
    split
    · simp
    · calc (retryAux op (att + 1) r _).attemptsMade ≤ att + 1 + r := ih (att + 1) _
        _ ≤ att + (r + 1) := by omega

theorem bulk_insert_count_le :
    ∀ (rows : List Article) (st : List Article × Nat),
      ((rows.foldl
          (fun st row =>
            if st.1.any (fun a => a.hash == row.hash || a.url == row.url) then st
            else (st.1 ++ [row], st.2 + 1))
          st).2) ≤ st.2 + rows.length := by
  intro rows
  induction rows with
  | nil => intro st; simp
  | cons r rest ih =>
    intro st
    simp only [List.foldl_cons, List.length_cons]
    split
    · calc _ ≤ st.2 + rest.length := ih st
        _ ≤ st.2 + (rest.length + 1) := by omega
    · calc _ ≤ st.2 + 1 + rest.length := ih (st.1 ++ [r], st.2 + 1)
        _ ≤ st.2 + (rest.length + 1) := by omega

theorem sha256HexChars_mem (bytes : List Nat) :
    ∀ c ∈ sha256HexChars bytes, c ∈ ("0123456789abcdef").data := by
  intro c hc
  simp only [sha256HexChars, List.mem_append] at hc
  rcases hc with ((((((h | h) | h) | h) | h) | h) | h) | h <;> exact toHexFixed_mem 8 _ c h

/-! ## Concrete instances used by witnesses and counterexamples -/

/-- A representative story. -/
def cBase : ProcessedStory :=
  ⟨1, "Hello World", "https://example.com/a", some "Alice", 0, 1, 0, "top"⟩

def cVaryId : ProcessedStory := { cBase with id := 2 }
def cVaryTitle : ProcessedStory := { cBase with title := "Hello Mars" }
def cVaryAuthor : ProcessedStory := { cBase with author := some "Bob" }
def cVaryUrl : ProcessedStory := { cBase with sourceUrl := "https://example.com/b" }
def cVaryTime : ProcessedStory := { cBase with time := 2 }

/-- A pre-existing article sharing `cBase`'s url but not its hash. -/
def cArt : Article :=
  ⟨2, "https://example.com/a", "Some other title", some "bob", "Hacker News",
   0, "en", false, "x", "hx", 0⟩

/-- Reference point for the fuzzy-title scenario (epoch + 30 days, in ms). -/
def fedNow : Int := 2592000000

/-- The pre-existing article of the spec's title-similarity example. -/
def fedArt : Article :=
  ⟨1, "https://example.com/fed1", "Federal Reserve signals a rate cut", some "bob",
   "Hacker News", 2592000000, "en", false, "x", "hx", 2592000000⟩

/-- The incoming story of the spec's title-similarity example. -/
def fedStory : ProcessedStory :=
  ⟨7, "Fed signals rate cut", "https://example.com/fed2", some "carol", 10, 1, 0, "top"⟩

theorem fedSimilarity_val :
    calculateTitleSimilarity "Fed signals rate cut" "Federal Reserve signals a rate cut"
      = 1 / 2 := by
  have hi : ((simWords "Fed signals rate cut").filter
      (fun w => (simWords "Federal Reserve signals a rate cut").contains w)).length = 3 := by
    decide
  have hu2 : ((simWords "Fed signals rate cut"
      ++ simWords "Federal Reserve signals a rate cut").dedup).length = 6 := by decide
  unfold calculateTitleSimilarity
  simp only [hi, hu2]
  norm_num

theorem fedCheck_none :
    checkForDuplicates [fedArt] fedNow fedStory (createContentHash fedStory)
      = ⟨false, "none", none⟩ := by
  have hh : ([fedArt].find? (fun a => a.hash == createContentHash fedStory)) = none := by
    decide
  have hu : ([fedArt].find? (fun a => a.url == fedStory.sourceUrl)) = none := by decide
  have hc : titleDupCandidate [fedArt] fedNow fedStory = some fedArt := by decide
  have hs : calculateTitleSimilarity fedStory.title fedArt.title = 1 / 2 :=
    fedSimilarity_val
  unfold checkForDuplicates
  rw [hh, hu, hc]
  simp only [hs]
  norm_num

/-- An already-persisted article whose stored hash is the literal `"hx"`. -/
def wArt : Article :=
  ⟨1, "https://example.com/w", "W title", some "ann", "Hacker News", 5, "en", false,
   "W title", "hx", 5⟩

/-- An article strictly older than the cleanup cutoff used in the witness. -/
def wOldArt : Article :=
  ⟨1, "https://example.com/old", "Old", some "o", "Hacker News", -1, "en", false,
   "Old", "h_old", -1⟩

/-- An article whose `createdAt` sits exactly on the cleanup cutoff. -/
def wBoundaryArt : Article :=
  ⟨1, "https://example.com/b1", "Boundary", some "b", "Hacker News", 0, "en", false,
   "Boundary", "h_b", 0⟩

/-! ## Claim theorems -/

/-- C1: ingestion is idempotent — when an article with the story's fingerprint
already exists, `saveHackerNewsStories` persists no new record; and feeding a
story identical in id/title/author/url/time a second time (starting from an
empty table) leaves exactly one persisted record, the second run reporting a
hash duplicate with `saved` unchanged and `skipped` incremented to one. -/
theorem saveBatch_idempotent_reingestion
    (db : List Article) (now now2 : Int) (sid : Nat) (s s2 : ProcessedStory)
    (ok : ProcessedStory → Bool)
    (hid : s2.id = s.id) (ht : s2.title = s.title) (ha : s2.author = s.author)
    (hu : s2.sourceUrl = s.sourceUrl) (htm : s2.time = s.time) :
    ((∃ a ∈ db, a.hash = createContentHash s) →
        (saveHackerNewsStories db now sid [s] ok).1 = db) ∧
    (saveHackerNewsStories [] now sid [s] (fun _ => true)).1.length = 1 ∧
    saveHackerNewsStories ((saveHackerNewsStories [] now sid [s] (fun _ => true)).1) now2 sid
        [s2] ok
      = ((saveHackerNewsStories [] now sid [s] (fun _ => true)).1,
         (⟨0, 1, 0, 0⟩ : SaveCounts)) := by
  have hhash : createContentHash s2 = createContentHash s :=
    createContentHash_congr s s2 hid (by rw [ht]) (by simp [authorKey, ha]) htm hu
  have h1 : saveHackerNewsStories [] now sid [s] (fun _ => true)
      = ([mkArticle sid now s (createContentHash s)], ⟨1, 0, 0, 0⟩) := by
    rw [save_singleton]
    rw [processStory_no_dup now sid _ [] ⟨0, 0, 0, 0⟩ s (by rw [checkForDuplicates_nil])]
    simp
  refine ⟨?_, ?_, ?_⟩
  · intro hex
    obtain ⟨b, hb⟩ := find?_some_of_exists (fun a => a.hash == createContentHash s) db
      (by rcases hex with ⟨a, hm, he⟩; exact ⟨a, hm, by simp [he]⟩)
    rw [save_singleton, processStory_hash_dup now sid ok db ⟨0, 0, 0, 0⟩ s b hb]
  · rw [h1]
    rfl
  · rw [h1]
    rw [save_singleton]
    have hb2 : ([mkArticle sid now s (createContentHash s)]).find?
        (fun a => a.hash == createContentHash s2)
        = some (mkArticle sid now s (createContentHash s)) := by
      simp [List.find?, mkArticle, hhash]
    rw [processStory_hash_dup now2 sid ok _ ⟨0, 0, 0, 0⟩ s2 _ hb2]

/-- C1 witness: the idempotence theorem applied to a concrete story from the
empty table. -/
theorem saveBatch_idempotent_reingestion_witness :
    (saveHackerNewsStories [] 0 1 [cBase] (fun _ => true)).1.length = 1 ∧
    saveHackerNewsStories ((saveHackerNewsStories [] 0 1 [cBase] (fun _ => true)).1) 0 1
        [cBase] (fun _ => true)
      = ((saveHackerNewsStories [] 0 1 [cBase] (fun _ => true)).1,
         (⟨0, 1, 0, 0⟩ : SaveCounts)) :=
  (saveBatch_idempotent_reingestion [] 0 0 1 cBase cBase (fun _ => true)
    rfl rfl rfl rfl rfl).2

/-- C2 (amended): the fingerprint is deterministic — a function of exactly
the five serialized inputs (externalId, normalized title, lowercased author
or `"unknown"`, the story time, and the source url); it always has the shape
`hn_` + 16 hex characters; and concretely it changes when any one of the five
inputs changes. -/
theorem contentHash_determinism_format (s s2 : ProcessedStory)
    (hid : s2.id = s.id) (ht : normalizeTitle s2.title = normalizeTitle s.title)
    (ha : authorKey s2 = authorKey s) (htm : s2.time = s.time)
    (hu : s2.sourceUrl = s.sourceUrl) :
    createContentHash s2 = createContentHash s ∧
    (createContentHash s).length = 19 ∧
    (∃ t : List Char, (createContentHash s).data = "hn_".data ++ t ∧ t.length = 16 ∧
        ∀ c ∈ t, c ∈ ("0123456789abcdef").data) ∧
    createContentHash cBase ≠ createContentHash cVaryId ∧
    createContentHash cBase ≠ createContentHash cVaryTitle ∧
    createContentHash cBase ≠ createContentHash cVaryAuthor ∧
    createContentHash cBase ≠ createContentHash cVaryUrl ∧
    createContentHash cBase ≠ createContentHash cVaryTime := by
  refine ⟨createContentHash_congr s s2 hid ht ha htm hu, ?_, ?_,
    by decide, by decide, by decide, by decide, by decide⟩
  · unfold createContentHash
    rw [String.length_append]
    show 3 + (String.mk ((sha256HexChars (utf8Bytes (contentString s))).take 16)).length = 19
    show 3 + ((sha256HexChars (utf8Bytes (contentString s))).take 16).length = 19
    rw [List.length_take, sha256HexChars_length]
    decide
  · refine ⟨(sha256HexChars (utf8Bytes (contentString s))).take 16, ?_, ?_, ?_⟩
    · unfold createContentHash
      rw [String.data_append]
    · rw [List.length_take, sha256HexChars_length]
      decide
    · intro c hc
      exact sha256HexChars_mem _ c (List.take_subset 16 _ hc)

/-- C2 witness: determinism and shape at a concrete story. -/
theorem contentHash_determinism_format_witness : (createContentHash cBase).length = 19 :=
  (contentHash_determinism_format cBase cBase rfl rfl rfl rfl rfl).2.1

/-- C2 counterexample: two stories agreeing on id, normalized title, author
key and url — the four fields the claim names — but differing in `time`
receive different fingerprints, so the fingerprint is not a function of
those four fields alone. -/
theorem contentHash_depends_on_time :
    cVaryTime.id = cBase.id ∧
    normalizeTitle cVaryTime.title = normalizeTitle cBase.title ∧
    authorKey cVaryTime = authorKey cBase ∧
    cVaryTime.sourceUrl = cBase.sourceUrl ∧
    createContentHash cVaryTime ≠ createContentHash cBase :=
  ⟨rfl, rfl, rfl, rfl, by decide⟩

/-- C3: the duplicate check strategies run in fixed priority order with
short-circuiting — a hash match wins over everything (so a story matching
both by hash and url is classified `hash`), then url, then the fuzzy title
strategy, else `none`; and the batch loop counts `hash` under skipped and
any other duplicate reason under duplicates. -/
theorem dupCheck_priority_order
    (db : List Article) (now : Int) (sid : Nat) (s : ProcessedStory) (h : String)
    (ok : ProcessedStory → Bool) (c : SaveCounts) :
    (∀ a, db.find? (fun x => x.hash == h) = some a →
        checkForDuplicates db now s h = ⟨true, "hash", some a⟩) ∧
    (db.find? (fun x => x.hash == h) = none →
      ∀ a, db.find? (fun x => x.url == s.sourceUrl) = some a →
        checkForDuplicates db now s h = ⟨true, "url", some a⟩) ∧
    (db.find? (fun x => x.hash == h) = none →
      db.find? (fun x => x.url == s.sourceUrl) = none →
      ((checkForDuplicates db now s h).reason = "title"
          ∧ (checkForDuplicates db now s h).isDuplicate = true)
        ∨ checkForDuplicates db now s h = ⟨false, "none", none⟩) ∧
    ((checkForDuplicates db now s (createContentHash s)).isDuplicate = true →
      ((checkForDuplicates db now s (createContentHash s)).reason = "hash" →
        processStory now sid ok (db, c) s = (db, { c with skipped := c.skipped + 1 })) ∧
      ((checkForDuplicates db now s (createContentHash s)).reason ≠ "hash" →
        processStory now sid ok (db, c) s = (db, { c with duplicates := c.duplicates + 1 }))) := by
  refine ⟨?_, ?_, ?_, ?_⟩
  · intro a hf
    unfold checkForDuplicates
    rw [hf]
  · intro h0 a hf
    unfold checkForDuplicates
    rw [h0, hf]
  · intro h0 h1
    unfold checkForDuplicates
    simp only [h0, h1]
    rcases hc : titleDupCandidate db now s with - | e
    · right; rfl
    · dsimp only
      by_cases hcond : e.title ≠ "" ∧ (0.8 : ℚ) < calculateTitleSimilarity s.title e.title
      · rw [if_pos hcond]
        left
        exact ⟨rfl, rfl⟩
      · rw [if_neg hcond]
        right
        rfl
  · intro hdup
    constructor
    · intro hr
      have hbeq : ((checkForDuplicates db now s (createContentHash s)).reason == "hash")
          = true := by simp [hr]
      simp only [processStory]
      rw [if_pos hdup, if_pos hbeq]
    · intro hr
      have hbeq : ((checkForDuplicates db now s (createContentHash s)).reason == "hash")
          = false := beq_eq_false_iff_ne.mpr hr
      simp only [processStory]
      rw [if_pos hdup, if_neg]
      simp [hbeq]

/-- C3 witness: a stored hash match is classified `hash`. -/
theorem dupCheck_priority_order_witness :
    checkForDuplicates [wArt] 0 cBase "hx" = ⟨true, "hash", some wArt⟩ :=
  (dupCheck_priority_order [wArt] 0 1 cBase "hx" (fun _ => true) ⟨0, 0, 0, 0⟩).1
    wArt (by decide)

/-- C4 (amended): the fuzzy strategy scores its single candidate (the most
recently published coarse match within 30 days) by Jaccard index over
normalized-title words longer than 2 characters and accepts only when the
similarity strictly exceeds 0.80; the spec's example pair has similarity 1/2
and is NOT flagged, and any candidate lies within the 30-day window. -/
theorem title_similarity_threshold
    (db : List Article) (now : Int) (s : ProcessedStory) (h : String)
    (hno : db.find? (fun a => a.hash == h) = none)
    (uno : db.find? (fun a => a.url == s.sourceUrl) = none) :
    (∀ e, titleDupCandidate db now s = some e → e.title ≠ "" →
        (0.8 : ℚ) < calculateTitleSimilarity s.title e.title →
        checkForDuplicates db now s h = ⟨true, "title", some e⟩) ∧
    (∀ e, titleDupCandidate db now s = some e →
        calculateTitleSimilarity s.title e.title ≤ (0.8 : ℚ) →
        checkForDuplicates db now s h = ⟨false, "none", none⟩) ∧
    (titleDupCandidate db now s = none →
        checkForDuplicates db now s h = ⟨false, "none", none⟩) ∧
    (∀ e, titleDupCandidate db now s = some e → now - 2592000000 ≤ e.publishedAt) ∧
    calculateTitleSimilarity "Fed signals rate cut" "Federal Reserve signals a rate cut"
      = 1 / 2 ∧
    checkForDuplicates [fedArt] fedNow fedStory (createContentHash fedStory)
      = ⟨false, "none", none⟩ := by
  refine ⟨?_, ?_, ?_, fun e he => titleDupCandidate_window db now s e he,
    fedSimilarity_val, fedCheck_none⟩
  · intro e he hne hgt
    unfold checkForDuplicates
    simp only [hno, uno, he]
    rw [if_pos ⟨hne, hgt⟩]
  · intro e he hle
    unfold checkForDuplicates
    simp only [hno, uno, he]
    rw [if_neg]
    intro hcon
    exact absurd hcon.2 (not_lt.mpr hle)
  · intro hnone
    unfold checkForDuplicates
    simp only [hno, uno, hnone]

/-- C4 witness: the threshold theorem applied to the concrete scenario
(candidate within the window). -/
theorem title_similarity_threshold_witness :
    fedNow - 2592000000 ≤ fedArt.publishedAt :=
  (title_similarity_threshold [fedArt] fedNow fedStory "zz" (by decide) (by decide)).2.2.2.1
    fedArt (by decide)

/-- C4 counterexample: the spec's example pair — published the same instant,
an eligible fuzzy candidate — has Jaccard similarity 1/2 and is NOT flagged
as a duplicate, contradicting the claimed reason-`title` flagging. -/
theorem fed_pair_not_title_flagged :
    titleDupCandidate [fedArt] fedNow fedStory = some fedArt ∧
    calculateTitleSimilarity fedStory.title fedArt.title = 1 / 2 ∧
    checkForDuplicates [fedArt] fedNow fedStory (createContentHash fedStory)
      = ⟨false, "none", none⟩ :=
  ⟨by decide, fedSimilarity_val, fedCheck_none⟩

/-- C5: every story lands in exactly one of the four counters, so the batch
statistics always sum to the input length; and a story whose insert fails
only increments `errors`, processing continuing with the remaining stories
on an unchanged table. -/
theorem saveBatch_partial_failure_accounting
    (db : List Article) (now : Int) (sid : Nat)
    (stories rest : List ProcessedStory) (s : ProcessedStory)
    (ok : ProcessedStory → Bool)
    (hnd : (checkForDuplicates db now s (createContentHash s)).isDuplicate = false)
    (hfail : ok s = false) :
    (saveHackerNewsStories db now sid stories ok).2.saved
        + (saveHackerNewsStories db now sid stories ok).2.skipped
        + (saveHackerNewsStories db now sid stories ok).2.duplicates
        + (saveHackerNewsStories db now sid stories ok).2.errors = stories.length ∧
    processBatch db now sid (s :: rest) ok =
      ((processBatch db now sid rest ok).1,
       { (processBatch db now sid rest ok).2 with
         errors := (processBatch db now sid rest ok).2.errors + 1 }) := by
  constructor
  · have htot := foldl_batches_total now sid ok (chunkArray stories 50) (db, ⟨0, 0, 0, 0⟩)
    have hflat : (chunkArray stories 50).flatten = stories := chunkArray_flatten stories 49
    have hsum : ((chunkArray stories 50).map List.length).sum = stories.length := by
      rw [← List.length_flatten, hflat]
    rw [hsum] at htot
    simp only [SaveCounts.total] at htot
    unfold saveHackerNewsStories
    dsimp only at htot ⊢
    omega
  · unfold processBatch
    simp only [List.foldl_cons]
    rw [processStory_no_dup now sid ok db ⟨0, 0, 0, 0⟩ s hnd, hfail]
    simp only [Bool.false_eq_true, if_false]
    rw [show ((⟨0, 0, 0 + 1, 0⟩ : SaveCounts))
        = addCounts ⟨0, 0, 1, 0⟩ ⟨0, 0, 0, 0⟩ from rfl]
    rw [foldl_processStory_shift]
    simp [addCounts, Nat.add_comm]

/-- C5 witness: the accounting theorem at a concrete one-story batch whose
insert fails. -/
theorem saveBatch_partial_failure_accounting_witness :
    (saveHackerNewsStories [] 0 1 [cBase] (fun _ => false)).2.saved
        + (saveHackerNewsStories [] 0 1 [cBase] (fun _ => false)).2.skipped
        + (saveHackerNewsStories [] 0 1 [cBase] (fun _ => false)).2.duplicates
        + (saveHackerNewsStories [] 0 1 [cBase] (fun _ => false)).2.errors
      = ([cBase] : List ProcessedStory).length :=
  (saveBatch_partial_failure_accounting [] 0 1 [cBase] [] cBase (fun _ => false)
    (by rw [checkForDuplicates_nil]) rfl).1

/-- C6 (amended): the bulk path reconciles totals — `saved + skipped` equals
the input length and it never reports `duplicates` or `errors` on the
success path — but it does not classify like the transactional path, which
reports url/title matches under `duplicates`. -/
theorem bulkInsert_reconciles_totals (db : List Article) (now : Int) (sid : Nat)
    (stories : List ProcessedStory) :
    (bulkInsertArticles db now sid stories).2.duplicates = 0 ∧
    (bulkInsertArticles db now sid stories).2.errors = 0 ∧
    (bulkInsertArticles db now sid stories).2.saved
        + (bulkInsertArticles db now sid stories).2.skipped = stories.length := by
  simp only [bulkInsertArticles]
  split
  · exact ⟨rfl, rfl, by simp⟩
  · refine ⟨rfl, rfl, ?_⟩
    exact Nat.add_sub_cancel'
      (le_trans (by simpa using bulk_insert_count_le _ (db, 0))
        (List.length_filterMap_le _ stories))

/-- C6 counterexample: on a table holding an article with the story's url
but a different hash, the transactional path reports the story under
`duplicates` while the bulk path reports it under `skipped` — the two paths
do not reconcile counts identically. -/
theorem bulk_vs_transactional_counts :
    (saveHackerNewsStories [cArt] 0 1 [cBase] (fun _ => true)).2
      = (⟨0, 0, 0, 1⟩ : SaveCounts) ∧
    (bulkInsertArticles [cArt] 0 1 [cBase]).2 = (⟨0, 1, 0, 0⟩ : SaveCounts) ∧
    ((⟨0, 0, 0, 1⟩ : SaveCounts) ≠ (⟨0, 1, 0, 0⟩ : SaveCounts)) :=
  ⟨by decide, by decide, by decide⟩

/-- C7 (amended): the retry helper makes at most `retries` attempts, sleeps
`1s · 2^(k-1)` after a failed attempt `k`, rethrows after the final failed
attempt (an always-failing operation runs exactly 3 times with delays 1s and
2s), succeeds immediately without delay when the first attempt succeeds —
but not every database call of the storage service is wrapped in it. -/
theorem retry_backoff_behavior {ε α : Type} (e : ε) (a : α)
    (f g hb op0 : Nat → Except ε α) (retries : Nat)
    (hf : ∀ k, f k = .error e) (hg : g 1 = .ok a)
    (hb1 : hb 1 = .error e) (hb2 : hb 2 = .ok a) (hr : 1 ≤ retries) :
    ((retryWithBackoff f 3).result = .error e ∧ (retryWithBackoff f 3).attemptsMade = 3 ∧
      (retryWithBackoff f 3).delays = [1000, 2000]) ∧
    retryWithBackoff g retries = ⟨.ok a, 1, []⟩ ∧
    retryWithBackoff hb 3 = ⟨.ok a, 2, [1000]⟩ ∧
    (retryWithBackoff op0 retries).attemptsMade ≤ retries := by
  refine ⟨?_, ?_, ?_, ?_⟩
  · have hcomp : retryWithBackoff f 3 = ⟨.error e, 3, [1000, 2000]⟩ := by
      norm_num [retryWithBackoff, retryAux, hf, baseDelay]
    rw [hcomp]
    exact ⟨rfl, rfl, rfl⟩
  · exact retryAux_ok_now g a (retries - 1) 1 [] hg
  · have step1 : retryWithBackoff hb 3 = retryAux hb 2 1 [baseDelay * 2 ^ (1 - 1)] := by
      simp [retryWithBackoff, retryAux, hb1]
    rw [step1, retryAux_ok_now hb a 1 2 _ hb2]
    norm_num [baseDelay]
  · calc (retryWithBackoff op0 retries).attemptsMade ≤ 1 + (retries - 1) :=
        retryAux_attempts_le op0 (retries - 1) 1 []
      _ ≤ retries := by omega

/-- C7 witness: an always-failing operation is invoked exactly 3 times. -/
theorem retry_backoff_behavior_witness :
    (retryWithBackoff (fun _ => (Except.error 0 : Except Nat Nat)) 3).attemptsMade = 3 :=
  (retry_backoff_behavior 0 1 (fun _ => .error 0) (fun _ => .ok 1)
    (fun k => if k = 1 then .error 0 else .ok 1) (fun _ => .error 0) 3
    (fun _ => rfl) rfl rfl rfl (by omega)).1.2.1

/-- C7 counterexample: the `deleteMany` call of `cleanupOldArticles` is made
exactly once and is not wrapped in the retry helper — an operation failing
only on its first invocation makes `cleanupOldArticles` fail although the
retry helper would have recovered on the second attempt. -/
theorem cleanup_call_not_retried :
    cleanupOldArticlesCall (fun k => if k = 1 then (.error 7 : Except Nat Nat) else .ok 5)
      = .error 7 ∧
    (retryWithBackoff (fun k => if k = 1 then (.error 7 : Except Nat Nat) else .ok 5)
        3).result = .ok 5 ∧
    (retryWithBackoff (fun k => if k = 1 then (.error 7 : Except Nat Nat) else .ok 5)
        3).attemptsMade = 2 :=
  ⟨rfl, rfl, rfl⟩

/-- C8: cleanup deletes exactly the records strictly older than the cutoff
and returns their number; boundary records are preserved, and an immediate
rerun with the same clock deletes nothing. -/
theorem cleanup_retention (db : List Article) (now : Int) (days : Nat) :
    (∀ a, a ∈ (cleanupOldArticles db now days).1 ↔
        a ∈ db ∧ now - (days : Int) * 86400000 ≤ a.createdAt) ∧
    (cleanupOldArticles db now days).2 =
      (db.filter (fun a => a.createdAt < now - (days : Int) * 86400000)).length ∧
    (∀ a ∈ db, now - (days : Int) * 86400000 ≤ a.createdAt →
        a ∈ (cleanupOldArticles db now days).1) ∧
    cleanupOldArticles (cleanupOldArticles db now days).1 now days =
      ((cleanupOldArticles db now days).1, 0) := by
  refine ⟨?_, rfl, ?_, ?_⟩
  · intro a
    simp [cleanupOldArticles, List.mem_filter, Int.not_lt]
  · intro a ha hge
    simp only [cleanupOldArticles, List.mem_filter]
    exact ⟨ha, by simp [Int.not_lt, hge]⟩
  · unfold cleanupOldArticles
    simp only [Prod.mk.injEq]
    constructor
    · simp [List.filter_filter]
    · rw [List.length_eq_zero, List.filter_eq_nil_iff]
      intro a ha
      have hmem := (List.mem_filter.mp ha).2
      simp only [Bool.not_eq_true', decide_eq_false_iff_not] at hmem
      simp [hmem]

/-- C8 witness: a record created exactly at the cutoff survives the cleanup. -/
theorem cleanup_retention_witness :
    wBoundaryArt ∈ (cleanupOldArticles [wOldArt, wBoundaryArt] 2592000000 30).1 :=
  (cleanup_retention [wOldArt, wBoundaryArt] 2592000000 30).2.2.1 wBoundaryArt
    (by decide) (by decide)

/-- C9 (amended): the shared stats service computes all five per-state counts
from the broker's current job lists on every call; the news-queue service's
own stats operation returns only four states, its total missing the delayed
jobs. -/
theorem queue_stats_states (q : QueueState) :
    getSingleQueueStats q
      = ⟨q.name, q.waiting.length, q.active.length, q.completed.length,
         q.failed.length, q.delayed.length,
         q.waiting.length + q.active.length + q.completed.length + q.failed.length
           + q.delayed.length⟩ ∧
    newsGetQueueStats q
      = ⟨q.waiting.length, q.active.length, q.completed.length, q.failed.length,
         q.waiting.length + q.active.length + q.completed.length + q.failed.length⟩ ∧
    (newsGetQueueStats q).total + q.delayed.length = (getSingleQueueStats q).total :=
  ⟨rfl, rfl, rfl⟩

/-- C9 counterexample: with one delayed job and nothing else, the news-queue
stats operation reports a total of 0 — it returns no delayed count at all —
while the broker holds one delayed job. -/
theorem news_queue_stats_misses_delayed :
    (newsGetQueueStats ⟨"news-queue", [], [], [], [], [42]⟩).total = 0 ∧
    (getSingleQueueStats ⟨"news-queue", [], [], [], [], [42]⟩).delayed = 1 ∧
    (getSingleQueueStats ⟨"news-queue", [], [], [], [], [42]⟩).total = 1 :=
  ⟨rfl, rfl, rfl⟩

/-- C10: every category fetch resolves only the first 20 ids of its index,
so each returns at most 20 stories and the combined fetch returns at most
60. -/
theorem fetch_per_category_cap (fetchItem : Nat → Option HackerNewsStory)
    (topIndex bestIndex newIndex : List Nat) (tOk bOk nOk : Bool) :
    (fetchTopStories fetchItem topIndex).length ≤ 20 ∧
    (fetchBestStories fetchItem bestIndex).length ≤ 20 ∧
    (fetchNewStories fetchItem newIndex).length ≤ 20 ∧
    fetchTopStories fetchItem topIndex = fetchTopStories fetchItem (topIndex.take 20) ∧
    fetchBestStories fetchItem bestIndex = fetchBestStories fetchItem (bestIndex.take 20) ∧
    fetchNewStories fetchItem newIndex = fetchNewStories fetchItem (newIndex.take 20) ∧
    (fetchAllStories fetchItem topIndex bestIndex newIndex tOk bOk nOk).1.length
      + (fetchAllStories fetchItem topIndex bestIndex newIndex tOk bOk nOk).2.1.length
      + (fetchAllStories fetchItem topIndex bestIndex newIndex tOk bOk nOk).2.2.length
      ≤ 60 := by
  have cap : ∀ (idx : List Nat) (t : String),
      (processStories fetchItem (idx.take 20) t).length ≤ 20 := by
    intro idx t
    rw [processStories_eq]
    exact le_trans (List.length_filterMap_le _ _) (List.length_take_le 20 idx)
  have h1 : (fetchTopStories fetchItem topIndex).length ≤ 20 := cap topIndex "top"
  have h2 : (fetchBestStories fetchItem bestIndex).length ≤ 20 := cap bestIndex "best"
  have h3 : (fetchNewStories fetchItem newIndex).length ≤ 20 := cap newIndex "new"
  refine ⟨h1, h2, h3, ?_, ?_, ?_, ?_⟩
  · simp [fetchTopStories, List.take_take]
  · simp [fetchBestStories, List.take_take]
  · simp [fetchNewStories, List.take_take]
  · cases tOk <;> cases bOk <;> cases nOk <;> simp [fetchAllStories] <;> omega

end NewsAgg
